import Mathlib

/-!
Verification of the retrieval-augmented-generation engine (`rag_engine.py`)
of the Ambatuscript repository, together with the approval-button protocol of
`app.py`.  The Python code is shallowly embedded: the Gemini backend and the
vector store are oracles inside the `RAGEngine` structure, every effectful
call is recorded in an event trace, and the regex-based directive extraction
of `_process_response` is implemented character by character with the exact
semantics of `re.search` / `re.sub` on the pattern
`\[REQUEST_DOCUMENT:([^\]]+)\]`.
-/

/-- A retrieved chunk's metadata dict (`doc["metadata"]`). -/
structure DocMetadata where
  page_start : Nat
  page_end : Nat
deriving DecidableEq, Repr

/-- A retrieved chunk as returned by `vector_store.similarity_search`:
the dict with keys `source`, `text`, `metadata`. -/
structure Doc where
  source : String
  text : String
  metadata : DocMetadata
deriving DecidableEq, Repr

/-- One chat-history entry: a dict with `role` and `content` keys. -/
structure Message where
  role : String
  content : String
deriving DecidableEq, Repr

/-- Effectful calls made by the engine, recorded in order: a similarity
search against the vector store, or a generation call to the Gemini model. -/
inductive Event where
  | search (query : String) (k : Nat)
  | gen (prompt : String)
deriving DecidableEq, Repr

/-- The dict returned by `generate_response_with_chat` /
`_handle_no_relevant_docs`.  `sources = none` models a dict with no
`"sources"` key; `document_request = none` models a dict with no
`"document_request"` key, and `some none` a present key holding `None`. -/
structure RAGResult where
  answer : String
  sources : Option (List Doc)
  document_request : Option (Option String)
deriving DecidableEq, Repr

/-- The dict built by `_process_response`: the `answer` key and the optional
`document_request` key. -/
structure ProcessedResponse where
  answer : String
  document_request : Option String
deriving DecidableEq, Repr

/-- The engine: the two external oracles (vector store and Gemini model,
each of which may fail, modelled by `Except`) and whether `__init__`
managed to construct the Gemini client (`self.model is not None`). -/
structure RAGEngine where
  similarity_search : String → Nat → Except String (List Doc)
  gemini : String → Except String String
  modelSome : Bool

/-! ### Small Python string helpers -/

/-- The whitespace characters removed by Python's `str.strip()` (ASCII). -/
def isPySpace (c : Char) : Bool :=
  c == ' ' || c == '\t' || c == '\n' || c == '\r' || c == '\x0b' || c == '\x0c'

/-- Python `str.strip()` on a character list. -/
def stripChars (l : List Char) : List Char :=
  ((l.dropWhile isPySpace).reverse.dropWhile isPySpace).reverse

/-- Python `str.strip()`. -/
def pyStrip (s : String) : String := ⟨stripChars s.data⟩

/-- Python `str.capitalize()`: first character upper-cased, rest lower-cased. -/
def pyCapitalize (s : String) : String :=
  match s.data with
  | [] => ""
  | c :: cs => ⟨c.toUpper :: cs.map Char.toLower⟩

/-- `os.path.basename`: everything after the last `/`. -/
def basename (s : String) : String :=
  ⟨(s.data.reverse.takeWhile (fun c => c != '/')).reverse⟩

/-- Python `sep.join(l)`. -/
def joinWith (sep : String) : List String → String
  | [] => ""
  | [x] => x
  | x :: y :: xs => x ++ sep ++ joinWith sep (y :: xs)

/-- `', '.join(l)`. -/
def joinComma : List String → String := joinWith ", "

/-- `' '.join(l)`. -/
def joinSpace : List String → String := joinWith " "

/-- Does the list start with the given pattern? -/
def startsWithL : List Char → List Char → Bool
  | [], _ => true
  | _ :: _, [] => false
  | p :: ps, s :: ss => p == s && startsWithL ps ss

/-- Boolean substring test (Python's `needle in hay` on the char lists). -/
def containsSub (needle : List Char) : List Char → Bool
  | [] => startsWithL needle []
  | c :: cs => startsWithL needle (c :: cs) || containsSub needle cs

/-- Python's `needle in hay` on strings. -/
def pyInB (needle hay : String) : Bool := containsSub needle.data hay.data

/-- `needle` occurs as a contiguous substring of `hay`. -/
def SubstringOf (needle hay : String) : Prop :=
  ∃ s t, hay.data = s ++ needle.data ++ t

/-! ### The directive pattern `\[REQUEST_DOCUMENT:([^\]]+)\]` -/

/-- The literal part of the directive pattern before the capture group. -/
def tagMark : List Char := "[REQUEST_DOCUMENT:".data

/-- Split a list at the first `]`: returns the (possibly empty) run of
non-`]` characters and the remainder after the `]`; `none` if no `]`
occurs.  This is how the greedy `([^\]]+)\]` finds the capture group. -/
def splitAtRB : List Char → Option (List Char × List Char)
  | [] => none
  | c :: cs =>
    if c = ']' then some ([], cs)
    else
      match splitAtRB cs with
      | some (nm, rest) => some (c :: nm, rest)
      | none => none

/-- Try to match the directive pattern at the head of `s`: on success,
returns the captured group (non-empty, `]`-free) and the suffix after the
closing `]`. -/
def matchTagAt (s : List Char) : Option (List Char × List Char) :=
  if startsWithL tagMark s then
    match splitAtRB (s.drop tagMark.length) with
    | some (nm, rest) => if nm.isEmpty then none else some (nm, rest)
    | none => none
  else none

/-- `re.search`: the capture group of the leftmost match, if any. -/
def findFirstTag : List Char → Option (List Char)
  | [] => none
  | c :: cs =>
    match matchTagAt (c :: cs) with
    | some (nm, _) => some nm
    | none => findFirstTag cs

/-- Fuel-indexed worker for `re.sub(pattern, '', text)`: scan left to
right, deleting each non-overlapping match and continuing after it. -/
def removeTagsFuel : Nat → List Char → List Char
  | 0, l => l
  | _ + 1, [] => []
  | fuel + 1, c :: cs =>
    match matchTagAt (c :: cs) with
    | some p => removeTagsFuel fuel p.2
    | none => c :: removeTagsFuel fuel cs

/-- `re.sub(doc_request_pattern, '', text)`. -/
def removeTags (l : List Char) : List Char := removeTagsFuel l.length l

/-- `RAGEngine._process_response`: extract the first directive (if any),
strip all directives from the displayed answer, trim whitespace. -/
def process_response (response_text : String) : ProcessedResponse :=
  match findFirstTag response_text.data with
  | none => { answer := response_text, document_request := none }
  | some nm =>
    { answer := ⟨stripChars (removeTags response_text.data)⟩
      document_request := some ⟨stripChars nm⟩ }

example : process_response "foo [REQUEST_DOCUMENT: bar.pdf ]" =
    ⟨"foo", some "bar.pdf"⟩ := by decide

example : process_response "plain answer, no tag" =
    ⟨"plain answer, no tag", none⟩ := by decide

example :
    process_response "a [REQUEST_DOCUMENT:one] b [REQUEST_DOCUMENT:two] c" =
    ⟨"a  b  c", some "one"⟩ := by decide

/-! ### The engine (`rag_engine.py`) -/

/-- `RAGEngine._check_recent_document_requests`: loop body, walking the
reversed history and collecting system messages that mention
`"permintaan dokumen"`, stopping once three are collected. -/
def check_recent_aux : List Message → List String → List String
  | [], acc => acc
  | m :: rest, acc =>
    if m.role == "system" && pyInB "permintaan dokumen" m.content then
      if 3 ≤ (acc ++ [m.content]).length then acc ++ [m.content]
      else check_recent_aux rest (acc ++ [m.content])
    else check_recent_aux rest acc

/-- `RAGEngine._check_recent_document_requests`. -/
def check_recent_document_requests (chat_history : List Message) : List String :=
  check_recent_aux chat_history.reverse []

/-- One labelled document block of `_create_context` (`Document {i+1}
(Source: ..., Pages: ...-...):` followed by the chunk text). -/
def docBlock (i : Nat) (d : Doc) : String :=
  "Document " ++ toString (i + 1) ++ " (Source: " ++ basename d.source ++
    ", Pages: " ++ toString d.metadata.page_start ++ "-" ++
    toString d.metadata.page_end ++ "):\n" ++ d.text ++ "\n\n"

/-- The slice `chat_history[-min(6, len(chat_history)):-1]`. -/
def recentSlice (h : List Message) : List Message :=
  (h.drop (h.length - min 6 h.length)).take
    ((h.length - 1) - (h.length - min 6 h.length))

/-- `RAGEngine._create_context`. -/
def create_context (relevant_docs : List Doc) (chat_history : List Message) :
    String :=
  if 1 < chat_history.length then
    (recentSlice chat_history).foldl
      (fun acc m =>
        if m.role == "system" then acc
        else acc ++ pyCapitalize m.role ++ ": " ++ m.content ++ "\n")
      ((relevant_docs.enum.foldl (fun acc p => acc ++ docBlock p.1 p.2)
          "Here are some relevant documents to help answer the question:\n\n") ++
        "\nRecent conversation history:\n")
  else
    relevant_docs.enum.foldl (fun acc p => acc ++ docBlock p.1 p.2)
      "Here are some relevant documents to help answer the question:\n\n"

/-- Python truthiness of the optional `available_documents` list. -/
def pyTruthyL (o : Option (List String)) : Bool :=
  match o with
  | some (_ :: _) => true
  | _ => false

/-- The base f-string of `_create_prompt` (exact bytes, including the
4-space indentation of the source literal). -/
def basePrompt (context : String) : String :=
  "Anda adalah asisten hukum yang ahli dalam hukum Indonesia. Berdasarkan dokumen-dokumen berikut, berikan jawaban yang relevan, jelas, dan mudah dipahami.\n\n    " ++
    context ++
    "\n\n    Silakan jawab pertanyaan di bawah ini berdasarkan informasi yang terdapat dalam dokumen di atas. Anda boleh menyusun ulang kalimat dengan bahasa Anda sendiri selama maknanya tetap sesuai dengan dokumen. Jangan menambahkan informasi dari luar dokumen. Jika dokumen tidak memuat informasi yang cukup, sampaikan bahwa jawabannya tidak tersedia.\n    "

/-- The catalog segment appended by `_create_prompt` when
`available_documents` is truthy. -/
def availSeg (names : List String) : String :=
  "\n    \n    Jika Anda membutuhkan informasi tambahan yang mungkin ada dalam dokumen lain, Anda dapat meminta pengguna untuk memberikan izin mengakses dokumen tertentu. Berikut daftar dokumen yang tersedia:\n    \n    " ++
    joinComma names ++
    "\n    \n    Jika Anda ingin meminta dokumen tertentu, tambahkan tag [REQUEST_DOCUMENT:nama_dokumen] di akhir jawaban Anda (pengguna tidak akan melihat teks dalam tanda kurung siku ini).\n    "

/-- The recent-document-requests grounding segment of `_create_prompt`. -/
def reqSeg (requests : List String) : String :=
  "\n    \n    Informasi terkait permintaan dokumen sebelumnya:\n    " ++
    joinSpace requests ++ "\n    "

/-- The trailing question segment of `_create_prompt`. -/
def querySeg (query : String) : String :=
  "\n    Question: " ++ query ++ "\n    \n    Answer:"

/-- `RAGEngine._create_prompt`. -/
def create_prompt (query context : String) (chat_history : List Message)
    (available_documents : Option (List String))
    (recent_document_requests : List String) : String :=
  let p0 := basePrompt context
  let p1 :=
    if pyTruthyL available_documents then p0 ++ availSeg (available_documents.getD [])
    else p0
  let p2 :=
    if recent_document_requests.isEmpty then p1
    else p1 ++ reqSeg recent_document_requests
  p2 ++ querySeg query

/-- `RAGEngine._generate_with_gemini`: calls the model, catches any
exception locally and turns it into an error string; the prompt sent is
recorded in the trace. -/
def generate_with_gemini (e : RAGEngine) (prompt : String) :
    String × List Event :=
  match e.gemini prompt with
  | .ok t => (t, [Event.gen prompt])
  | .error m => ("Error generating response: " ++ m, [Event.gen prompt])

/-- The fallback prompt of `_handle_no_relevant_docs` (exact bytes of the
source f-string). -/
def fallbackPrompt (query : String) (available_documents : List String) :
    String :=
  "Anda adalah asisten hukum yang ahli dalam hukum Indonesia. Pengguna bertanya:\n\n        \"" ++
    query ++
    "\"\n\n        Sayangnya, tidak ada dokumen yang relevan ditemukan dalam basis data kami. Namun, kami memiliki dokumen-dokumen berikut:\n\n        " ++
    joinComma available_documents ++
    "\n\n        Berdasarkan pertanyaan pengguna, dokumen mana yang mungkin berisi informasi yang relevan? \n        Format respons Anda sebagai berikut:\n        1. Beri tahu pengguna bahwa Anda tidak menemukan informasi yang relevan\n        2. Tanyakan apakah mereka ingin Anda mencari informasi spesifik dalam [nama dokumen yang paling relevan]\n        3. Jelaskan mengapa dokumen tersebut mungkin membantu\n        \n        Tambahkan [REQUEST_DOCUMENT:nama_dokumen] di bagian akhir respons Anda (pengguna tidak akan melihat teks dalam tanda kurung siku ini).\n        "

/-- `RAGEngine._handle_no_relevant_docs`: build the fallback prompt,
generate, extract the directive.  The returned dict has only the keys
produced by `_process_response` — in particular no `"sources"` key. -/
def handle_no_relevant_docs (e : RAGEngine) (query : String)
    (chat_history : List Message) (available_documents : List String) :
    RAGResult × List Event :=
  let prompt := fallbackPrompt query available_documents
  let g := generate_with_gemini e prompt
  let processed := process_response g.1
  ({ answer := processed.answer
     sources := none
     document_request := processed.document_request.map some }, g.2)

/-- The fixed answer returned when `self.model` is `None`. -/
def initErrMsg : String :=
  "Error: Gemini API model not initialized. Please check your API key."

/-- The fixed no-relevant-information answer. -/
def noInfoMsg : String :=
  "Saya tidak dapat menemukan informasi yang relevan untuk menjawab pertanyaan Anda. Silakan coba dengan pertanyaan yang berbeda atau pastikan dokumen telah diproses."

/-- `RAGEngine.generate_response_with_chat`, with its event trace.  The
only statement inside the `try` that can raise is the vector-store call
(`_generate_with_gemini` catches its own exceptions), so the outer
`except` branch is the `.error` case of `similarity_search`. -/
def generate_response_with_chat (e : RAGEngine) (query : String)
    (chat_history : List Message) (num_results : Nat)
    (available_documents : Option (List String)) : RAGResult × List Event :=
  if e.modelSome then
    let recent := check_recent_document_requests chat_history
    match e.similarity_search query num_results with
    | .error m =>
      ({ answer := "Error generating response: " ++ m
         sources := some []
         document_request := none }, [Event.search query num_results])
    | .ok relevant_docs =>
      if relevant_docs.isEmpty then
        if pyTruthyL available_documents then
          let out :=
            handle_no_relevant_docs e query chat_history
              (available_documents.getD [])
          (out.1, Event.search query num_results :: out.2)
        else
          ({ answer := noInfoMsg, sources := some [], document_request := none },
            [Event.search query num_results])
      else
        let context := create_context relevant_docs chat_history
        let prompt :=
          create_prompt query context chat_history available_documents recent
        let g := generate_with_gemini e prompt
        let processed := process_response g.1
        ({ answer := processed.answer
           sources := some relevant_docs
           document_request := some processed.document_request },
          Event.search query num_results :: g.2)
  else
    ({ answer := initErrMsg, sources := some [], document_request := none }, [])

/-- `RAGEngine.generate_response` (legacy single-turn entry point). -/
def generate_response (e : RAGEngine) (query : String) (num_results : Nat) :
    RAGResult × List Event :=
  generate_response_with_chat e query [{ role := "user", content := query }]
    num_results none

/-! ### Parser lemmas -/

/-- The full directive text for a given captured name. -/
def tagOf (nm : List Char) : List Char := tagMark ++ nm ++ [']']

/-- `l` contains an occurrence of the directive pattern. -/
def ContainsTag (l : List Char) : Prop :=
  ∃ pre nm post, nm ≠ [] ∧ ']' ∉ nm ∧ l = pre ++ tagMark ++ nm ++ ']' :: post

theorem startsWithL_append (p t : List Char) : startsWithL p (p ++ t) = true := by
  induction p with
  | nil => rfl
  | cons c cs ih => simp [startsWithL, ih]

theorem startsWithL_iff (p s : List Char) :
    startsWithL p s = true ↔ ∃ t, s = p ++ t := by
  induction p generalizing s with
  | nil => simp [startsWithL]
  | cons c cs ih =>
    cases s with
    | nil => simp [startsWithL]
    | cons d ds =>
      simp only [startsWithL, Bool.and_eq_true, beq_iff_eq, ih]
      constructor
      · rintro ⟨rfl, t, rfl⟩; exact ⟨t, rfl⟩
      · rintro ⟨t, ht⟩
        simp only [List.cons_append, List.cons.injEq] at ht
        exact ⟨ht.1.symm, t, ht.2⟩

theorem splitAtRB_spec (l nm rest : List Char)
    (h : splitAtRB l = some (nm, rest)) :
    l = nm ++ ']' :: rest ∧ ']' ∉ nm := by
  induction l generalizing nm rest with
  | nil => simp [splitAtRB] at h
  | cons c cs ih =>
    by_cases hc : c = ']'
    · subst hc
      simp only [splitAtRB, if_pos rfl, Option.some.injEq, Prod.mk.injEq] at h
      obtain ⟨rfl, rfl⟩ := h
      simp
    · simp only [splitAtRB, if_neg hc] at h
      cases hsp : splitAtRB cs with
      | none => rw [hsp] at h; exact absurd h (by simp)
      | some p =>
        obtain ⟨nm1, rest1⟩ := p
        rw [hsp] at h
        simp only [Option.some.injEq, Prod.mk.injEq] at h
        obtain ⟨rfl, rfl⟩ := h
        obtain ⟨heq, hmem⟩ := ih nm1 rest1 hsp
        constructor
        · rw [heq]; simp
        · intro hm
          rcases List.mem_cons.mp hm with h3 | h3
          · exact hc h3.symm
          · exact hmem h3

theorem splitAtRB_append (nm rest : List Char) (h : ']' ∉ nm) :
    splitAtRB (nm ++ ']' :: rest) = some (nm, rest) := by
  induction nm with
  | nil => simp [splitAtRB]
  | cons c cs ih =>
    simp only [List.mem_cons, not_or] at h
    have hc : ¬ c = ']' := fun he => h.1 (he ▸ rfl)
    simp [splitAtRB, if_neg hc, ih h.2]

theorem matchTagAt_mk (nm rest : List Char) (hne : nm ≠ []) (hmem : ']' ∉ nm) :
    matchTagAt (tagMark ++ nm ++ ']' :: rest) = some (nm, rest) := by
  have hs : startsWithL tagMark (tagMark ++ (nm ++ ']' :: rest)) = true :=
    startsWithL_append _ _
  have hd : (tagMark ++ (nm ++ ']' :: rest)).drop tagMark.length =
      nm ++ ']' :: rest := List.drop_left _ _
  simp only [matchTagAt, List.append_assoc, hs, if_true, hd,
    splitAtRB_append nm rest hmem]
  simp [List.isEmpty_iff, hne]

theorem matchTagAt_spec (s nm rest : List Char)
    (h : matchTagAt s = some (nm, rest)) :
    s = tagMark ++ nm ++ ']' :: rest ∧ nm ≠ [] ∧ ']' ∉ nm := by
  by_cases hs : startsWithL tagMark s = true
  · obtain ⟨t, rfl⟩ := (startsWithL_iff _ _).1 hs
    have hd : (tagMark ++ t).drop tagMark.length = t := List.drop_left _ _
    rw [matchTagAt, if_pos hs, hd] at h
    cases hsp : splitAtRB t with
    | none => rw [hsp] at h; exact absurd h (by simp)
    | some p =>
      obtain ⟨nm1, rest1⟩ := p
      rw [hsp] at h
      cases hni : nm1.isEmpty with
      | true => simp [hni] at h
      | false =>
        simp only [hni, Bool.false_eq_true, if_false, Option.some.injEq,
          Prod.mk.injEq] at h
        obtain ⟨rfl, rfl⟩ := h
        obtain ⟨heq, hmem⟩ := splitAtRB_spec t nm1 rest1 hsp
        subst heq
        refine ⟨by simp, ?_, hmem⟩
        intro he
        rw [he] at hni
        simp at hni
  · rw [matchTagAt, if_neg hs] at h
    exact absurd h (by simp)

theorem matchTagAt_length (s nm rest : List Char)
    (h : matchTagAt s = some (nm, rest)) : rest.length < s.length := by
  obtain ⟨heq, -, -⟩ := matchTagAt_spec s nm rest h
  rw [heq]
  simp [tagMark]
  omega

theorem matchTagAt_cons_ne (c : Char) (cs : List Char) (h : c ≠ '[') :
    matchTagAt (c :: cs) = none := by
  have : startsWithL tagMark (c :: cs) = false := by
    have : tagMark = '[' :: "REQUEST_DOCUMENT:".data := by decide
    rw [this]
    simp only [startsWithL, Bool.and_eq_false_iff]
    left
    simp [beq_eq_false_iff_ne]
    exact fun he => h he.symm
  simp [matchTagAt, this]

theorem findFirstTag_cons (c : Char) (cs : List Char) :
    findFirstTag (c :: cs) =
      match matchTagAt (c :: cs) with
      | some (nm, _) => some nm
      | none => findFirstTag cs := rfl

theorem findFirstTag_here (l nm rest : List Char)
    (h : matchTagAt l = some (nm, rest)) : findFirstTag l = some nm := by
  cases l with
  | nil =>
    rw [show matchTagAt ([] : List Char) = none from by decide] at h
    exact absurd h (by simp)
  | cons c cs => rw [findFirstTag_cons, h]

theorem findFirstTag_cons_none (c : Char) (cs : List Char)
    (h : matchTagAt (c :: cs) = none) :
    findFirstTag (c :: cs) = findFirstTag cs := by
  rw [findFirstTag_cons, h]

theorem findFirstTag_skip (pre l : List Char) (h : '[' ∉ pre) :
    findFirstTag (pre ++ l) = findFirstTag l := by
  induction pre with
  | nil => rfl
  | cons c cs ih =>
    simp only [List.mem_cons, not_or] at h
    rw [List.cons_append,
      findFirstTag_cons_none _ _ (matchTagAt_cons_ne _ _ (fun he => h.1 he.symm)),
      ih h.2]

theorem findFirstTag_clean (l : List Char) (h : '[' ∉ l) :
    findFirstTag l = none := by
  have h0 := findFirstTag_skip l [] h
  simpa using h0

theorem findFirstTag_isSome_append (pre l : List Char)
    (h : (findFirstTag l).isSome = true) :
    (findFirstTag (pre ++ l)).isSome = true := by
  induction pre with
  | nil => exact h
  | cons c cs ih =>
    rw [List.cons_append, findFirstTag_cons]
    cases hm : matchTagAt (c :: (cs ++ l)) with
    | some p => obtain ⟨nm, r⟩ := p; simp
    | none => simpa using ih

theorem findFirstTag_sound (l nm : List Char) (h : findFirstTag l = some nm) :
    ∃ pre post, l = pre ++ tagMark ++ nm ++ ']' :: post ∧ nm ≠ [] ∧ ']' ∉ nm := by
  induction l with
  | nil => simp [findFirstTag] at h
  | cons c cs ih =>
    rw [findFirstTag_cons] at h
    cases hm : matchTagAt (c :: cs) with
    | some p =>
      obtain ⟨nm1, rest1⟩ := p
      rw [hm] at h
      simp only [Option.some.injEq] at h
      subst h
      obtain ⟨heq, hne, hmem⟩ := matchTagAt_spec _ _ _ hm
      exact ⟨[], rest1, by simpa using heq, hne, hmem⟩
    | none =>
      rw [hm] at h
      obtain ⟨pre, post, heq, hne, hmem⟩ := ih h
      exact ⟨c :: pre, post, by simp [heq], hne, hmem⟩

theorem containsTag_iff (l : List Char) :
    ContainsTag l ↔ (findFirstTag l).isSome = true := by
  constructor
  · rintro ⟨pre, nm, post, hne, hmem, rfl⟩
    have hm : matchTagAt (tagMark ++ nm ++ ']' :: post) = some (nm, post) :=
      matchTagAt_mk nm post hne hmem
    have h1 : findFirstTag (tagMark ++ nm ++ ']' :: post) = some nm :=
      findFirstTag_here _ _ _ hm
    have h2 : (findFirstTag (tagMark ++ nm ++ ']' :: post)).isSome = true := by
      rw [h1]; rfl
    have h3 := findFirstTag_isSome_append pre _ h2
    simpa [List.append_assoc] using h3
  · intro h
    cases hf : findFirstTag l with
    | none => rw [hf] at h; simp at h
    | some nm =>
      obtain ⟨pre, post, heq, hne, hmem⟩ := findFirstTag_sound l nm hf
      exact ⟨pre, nm, post, hne, hmem, heq⟩

theorem removeTagsFuel_irrel (f : Nat) :
    ∀ (g : Nat) (l : List Char), l.length ≤ f → l.length ≤ g →
      removeTagsFuel f l = removeTagsFuel g l := by
  induction f with
  | zero =>
    intro g l hf hg
    obtain rfl : l = [] := List.eq_nil_of_length_eq_zero (Nat.le_zero.mp hf)
    cases g with
    | zero => rfl
    | succ g => rfl
  | succ f ih =>
    intro g l hf hg
    cases l with
    | nil =>
      cases g with
      | zero => rfl
      | succ g => rfl
    | cons c cs =>
      cases g with
      | zero => simp at hg
      | succ g =>
        show removeTagsFuel (f + 1) (c :: cs) = removeTagsFuel (g + 1) (c :: cs)
        simp only [removeTagsFuel]
        cases hm : matchTagAt (c :: cs) with
        | some p =>
          have hlt : p.2.length < (c :: cs).length :=
            matchTagAt_length _ p.1 p.2 (by rw [hm])
          simp only [List.length_cons] at hlt
          exact ih g p.2 (by simp at hf; omega) (by simp at hg; omega)
        | none =>
          have h1 : cs.length ≤ f := by simp at hf; omega
          have h2 : cs.length ≤ g := by simp at hg; omega
          rw [ih g cs h1 h2]

theorem removeTags_cons_some (c : Char) (cs nm rest : List Char)
    (h : matchTagAt (c :: cs) = some (nm, rest)) :
    removeTags (c :: cs) = removeTags rest := by
  have hlt := matchTagAt_length _ _ _ h
  simp only [List.length_cons] at hlt
  show removeTagsFuel (c :: cs).length (c :: cs) = _
  simp only [List.length_cons, removeTagsFuel, h]
  exact removeTagsFuel_irrel cs.length rest.length rest (by omega) le_rfl

theorem removeTags_cons_none (c : Char) (cs : List Char)
    (h : matchTagAt (c :: cs) = none) :
    removeTags (c :: cs) = c :: removeTags cs := by
  show removeTagsFuel (c :: cs).length (c :: cs) = _
  simp only [List.length_cons, removeTagsFuel, h]
  rfl

theorem removeTags_skip (pre l : List Char) (h : '[' ∉ pre) :
    removeTags (pre ++ l) = pre ++ removeTags l := by
  induction pre with
  | nil => rfl
  | cons c cs ih =>
    simp only [List.mem_cons, not_or] at h
    rw [List.cons_append,
      removeTags_cons_none _ _ (matchTagAt_cons_ne _ _ (fun he => h.1 he.symm)),
      ih h.2, List.cons_append]

theorem removeTags_tag (nm rest : List Char) (hne : nm ≠ []) (hmem : ']' ∉ nm) :
    removeTags (tagMark ++ nm ++ ']' :: rest) = removeTags rest := by
  have hm := matchTagAt_mk nm rest hne hmem
  simp only [List.append_assoc] at hm ⊢
  exact removeTags_cons_some '['
    ("REQUEST_DOCUMENT:".data ++ (nm ++ ']' :: rest)) nm rest hm

theorem removeTags_clean (l : List Char) (h : '[' ∉ l) : removeTags l = l := by
  have h0 := removeTags_skip l [] h
  have h1 : removeTags ([] : List Char) = [] := rfl
  rw [h1, List.append_nil] at h0
  exact h0

theorem findFirstTag_hereR (nm rest : List Char) (hne : nm ≠ [])
    (hmem : ']' ∉ nm) :
    findFirstTag (tagMark ++ (nm ++ (']' :: rest))) = some nm := by
  have h := findFirstTag_here _ _ _ (matchTagAt_mk nm rest hne hmem)
  simpa [List.append_assoc] using h

theorem removeTags_tagR (nm rest : List Char) (hne : nm ≠ [])
    (hmem : ']' ∉ nm) :
    removeTags (tagMark ++ (nm ++ (']' :: rest))) = removeTags rest := by
  have h := removeTags_tag nm rest hne hmem
  simpa [List.append_assoc] using h

theorem process_response_eq_some (t : String) (nm : List Char)
    (h : findFirstTag t.data = some nm) :
    process_response t =
      ⟨⟨stripChars (removeTags t.data)⟩, some ⟨stripChars nm⟩⟩ := by
  unfold process_response
  rw [h]

theorem process_response_eq_none (t : String)
    (h : findFirstTag t.data = none) : process_response t = ⟨t, none⟩ := by
  unfold process_response
  rw [h]

/-- Claim C4: `_process_response` extracts a present directive — the
displayed answer has the directive substring removed and the
document-request field is the captured name trimmed of whitespace; the
spec's concrete example holds; and a text with no directive occurrence
passes through unchanged with no request signalled. -/
theorem spec_C4 :
    process_response "foo [REQUEST_DOCUMENT: bar.pdf ]" =
        ⟨"foo", some "bar.pdf"⟩ ∧
    (∀ pre nm post : List Char, nm ≠ [] → ']' ∉ nm → '[' ∉ pre → '[' ∉ post →
      process_response ⟨pre ++ tagOf nm ++ post⟩ =
        ⟨⟨stripChars (pre ++ post)⟩, some ⟨stripChars nm⟩⟩) ∧
    (∀ t : String, ¬ ContainsTag t.data → process_response t = ⟨t, none⟩) := by
  refine ⟨by decide, ?_, ?_⟩
  · intro pre nm post hne hmem hpre hpost
    have hx : pre ++ tagOf nm ++ post =
        pre ++ (tagMark ++ (nm ++ (']' :: post))) := by
      simp [tagOf, List.append_assoc]
    have hfind : findFirstTag (String.mk (pre ++ tagOf nm ++ post)).data =
        some nm := by
      show findFirstTag (pre ++ tagOf nm ++ post) = some nm
      rw [hx, findFirstTag_skip pre _ hpre]
      exact findFirstTag_hereR nm post hne hmem
    rw [process_response_eq_some _ nm hfind]
    have hrem : removeTags (pre ++ tagOf nm ++ post) = pre ++ post := by
      rw [hx, removeTags_skip pre _ hpre, removeTags_tagR nm post hne hmem,
        removeTags_clean post hpost]
    show ProcessedResponse.mk ⟨stripChars (removeTags (pre ++ tagOf nm ++ post))⟩ _ = _
    rw [hrem]
  · intro t h
    have hf : findFirstTag t.data = none := by
      cases hf : findFirstTag t.data with
      | none => rfl
      | some nm => exact absurd ((containsTag_iff _).2 (by rw [hf]; rfl)) h
    exact process_response_eq_none t hf

theorem spec_C4_witness :
    process_response ⟨"z ".data ++ tagOf "doc.pdf".data ++ " w".data⟩ =
      ⟨⟨stripChars ("z ".data ++ " w".data)⟩, some ⟨stripChars "doc.pdf".data⟩⟩ ∧
    process_response "plain answer, no tag" = ⟨"plain answer, no tag", none⟩ := by
  constructor
  · exact spec_C4.2.1 "z ".data "doc.pdf".data " w".data (by decide) (by decide)
      (by decide) (by decide)
  · exact spec_C4.2.2 "plain answer, no tag" (by rw [containsTag_iff]; decide)

/-- Claim C5: when a raw text decomposes as two directive occurrences
(the first preceded by tag-free text), `_process_response` honours only
the leftmost occurrence: the document-request field is its trimmed
captured name, regardless of the later occurrence. -/
theorem spec_C5 (pre nm1 mid nm2 post : List Char)
    (h1 : nm1 ≠ []) (h2 : ']' ∉ nm1) (hpre : '[' ∉ pre)
    (h3 : nm2 ≠ []) (h4 : ']' ∉ nm2) :
    (process_response
        ⟨pre ++ tagOf nm1 ++ mid ++ tagOf nm2 ++ post⟩).document_request =
      some ⟨stripChars nm1⟩ := by
  have hx : pre ++ tagOf nm1 ++ mid ++ tagOf nm2 ++ post =
      pre ++ (tagMark ++ (nm1 ++ (']' :: (mid ++ tagOf nm2 ++ post)))) := by
    simp [tagOf, List.append_assoc]
  have hfind : findFirstTag
      (String.mk (pre ++ tagOf nm1 ++ mid ++ tagOf nm2 ++ post)).data =
      some nm1 := by
    show findFirstTag (pre ++ tagOf nm1 ++ mid ++ tagOf nm2 ++ post) = some nm1
    rw [hx, findFirstTag_skip pre _ hpre]
    exact findFirstTag_hereR nm1 _ h1 h2
  rw [process_response_eq_some _ nm1 hfind]

theorem spec_C5_witness :
    (process_response
        ⟨"a".data ++ tagOf "one".data ++ "b".data ++ tagOf "two".data ++
          "c".data⟩).document_request = some ⟨stripChars "one".data⟩ :=
  spec_C5 "a".data "one".data "b".data "two".data "c".data (by decide)
    (by decide) (by decide) (by decide) (by decide)

/-- Text consisting of an initial segment followed by alternating
directives and segments. -/
def weave (s0 : List Char) : List (List Char × List Char) → List Char
  | [] => s0
  | (nm, s) :: rest => s0 ++ tagOf nm ++ weave s rest

theorem removeTags_weave (segs : List (List Char × List Char)) :
    ∀ s0 : List Char, '[' ∉ s0 →
    (∀ p ∈ segs, p.1 ≠ [] ∧ ']' ∉ p.1 ∧ '[' ∉ p.2) →
    removeTags (weave s0 segs) = s0 ++ (segs.map Prod.snd).flatten := by
  induction segs with
  | nil =>
    intro s0 h0 _
    simp [weave, removeTags_clean s0 h0]
  | cons p rest ih =>
    obtain ⟨nm, s⟩ := p
    intro s0 h0 hall
    have hp := hall (nm, s) (List.mem_cons_self _ _)
    have hx : weave s0 ((nm, s) :: rest) =
        s0 ++ (tagMark ++ (nm ++ (']' :: weave s rest))) := by
      simp [weave, tagOf, List.append_assoc]
    rw [hx, removeTags_skip s0 _ h0, removeTags_tagR nm _ hp.1 hp.2.1,
      ih s hp.2.2 (fun q hq => hall q (List.mem_cons_of_mem _ hq))]
    simp [List.append_assoc]

/-- Claim C10: with at least one directive occurrence, every occurrence
(not only the first) is removed from the answer, the result is stripped
of surrounding whitespace, and only the first occurrence's name fills the
document-request field. -/
theorem spec_C10 (s0 nm1 s1 : List Char) (rest : List (List Char × List Char))
    (h0 : '[' ∉ s0) (h1 : nm1 ≠ []) (h2 : ']' ∉ nm1) (h3 : '[' ∉ s1)
    (hrest : ∀ p ∈ rest, p.1 ≠ [] ∧ ']' ∉ p.1 ∧ '[' ∉ p.2) :
    process_response ⟨weave s0 ((nm1, s1) :: rest)⟩ =
      ⟨⟨stripChars (s0 ++ (s1 ++ (rest.map Prod.snd).flatten))⟩,
        some ⟨stripChars nm1⟩⟩ := by
  have hx : weave s0 ((nm1, s1) :: rest) =
      s0 ++ (tagMark ++ (nm1 ++ (']' :: weave s1 rest))) := by
    simp [weave, tagOf, List.append_assoc]
  have hfind : findFirstTag (String.mk (weave s0 ((nm1, s1) :: rest))).data =
      some nm1 := by
    show findFirstTag (weave s0 ((nm1, s1) :: rest)) = some nm1
    rw [hx, findFirstTag_skip s0 _ h0]
    exact findFirstTag_hereR nm1 _ h1 h2
  rw [process_response_eq_some _ nm1 hfind]
  have hrem := removeTags_weave ((nm1, s1) :: rest) s0 h0
    (by
      intro p hp
      rcases List.mem_cons.mp hp with h | h
      · rw [h]; exact ⟨h1, h2, h3⟩
      · exact hrest p h)
  show ProcessedResponse.mk
      ⟨stripChars (removeTags (weave s0 ((nm1, s1) :: rest)))⟩ _ = _
  rw [hrem]
  simp

theorem spec_C10_witness :
    process_response ⟨weave " x ".data [("uu1.pdf".data, " mid ".data),
        ("uu2.pdf".data, " akhir ".data)]⟩ =
      ⟨⟨stripChars (" x ".data ++ (" mid ".data ++
          ([(" akhir ".data)]).flatten))⟩, some ⟨stripChars "uu1.pdf".data⟩⟩ := by
  have h := spec_C10 " x ".data "uu1.pdf".data " mid ".data
    [("uu2.pdf".data, " akhir ".data)] (by decide) (by decide) (by decide)
    (by decide) (by intro p hp; simp at hp; rw [hp]; exact ⟨by decide, by decide, by decide⟩)
  simpa using h

/-! ### Substring helpers -/

theorem data_append (a b : String) : (a ++ b).data = a.data ++ b.data := rfl

theorem substringOf_append_left (n a b : String) (h : SubstringOf n a) :
    SubstringOf n (a ++ b) := by
  obtain ⟨s, t, hst⟩ := h
  exact ⟨s, t ++ b.data, by simp [data_append, hst, List.append_assoc]⟩

theorem substringOf_append_right (n a b : String) (h : SubstringOf n b) :
    SubstringOf n (a ++ b) := by
  obtain ⟨s, t, hst⟩ := h
  exact ⟨a.data ++ s, t, by simp [data_append, hst, List.append_assoc]⟩

theorem substringOf_mem_joinWith (sep : String) (names : List String)
    (nm : String) (h : nm ∈ names) : SubstringOf nm (joinWith sep names) := by
  induction names with
  | nil => simp at h
  | cons x rest ih =>
    rcases List.mem_cons.mp h with rfl | hmem
    · cases rest with
      | nil => exact ⟨[], [], by simp [joinWith]⟩
      | cons y ys =>
        refine ⟨[], (sep ++ joinWith sep (y :: ys)).data, ?_⟩
        show (joinWith sep (nm :: y :: ys)).data = [] ++ nm.data ++ _
        simp [joinWith, data_append, List.append_assoc]
    · cases rest with
      | nil => simp at hmem
      | cons y ys =>
        have hsub := ih hmem
        show SubstringOf nm (joinWith sep (x :: y :: ys))
        have hx : joinWith sep (x :: y :: ys) =
            (x ++ sep) ++ joinWith sep (y :: ys) := by
          show x ++ sep ++ joinWith sep (y :: ys) = _
          rw [String.append_assoc]
        rw [hx]
        exact substringOf_append_right nm (x ++ sep) _ hsub

/-! ### Example fixtures used by concrete instantiations -/

/-- A sample retrieved chunk. -/
def egDoc : Doc :=
  { source := "processed_data/uu-contoh.pdf"
    text := "Pasal 1: contoh isi."
    metadata := { page_start := 1, page_end := 2 } }

/-- Engine whose store always finds `egDoc` and whose Gemini call raises. -/
def engFail : RAGEngine :=
  { similarity_search := fun _ _ => .ok [egDoc]
    gemini := fun _ => .error "boom"
    modelSome := true }

/-- Engine whose store finds nothing and whose Gemini call succeeds with a
directive naming `UU-1.pdf`. -/
def engFallback : RAGEngine :=
  { similarity_search := fun _ _ => .ok []
    gemini := fun _ => .ok "Maaf, tidak ada. [REQUEST_DOCUMENT:UU-1.pdf]"
    modelSome := true }

/-- Engine whose store finds nothing; the Gemini call succeeds. -/
def engEmpty : RAGEngine :=
  { similarity_search := fun _ _ => .ok []
    gemini := fun _ => .ok "jawab"
    modelSome := true }

/-- Engine whose `__init__` failed to build the Gemini client. -/
def engNoModel : RAGEngine :=
  { similarity_search := fun _ _ => .ok []
    gemini := fun _ => .ok ""
    modelSome := false }

/-! ### Claims about the orchestrator -/

/-- Claim C8: the legacy entry point `generate_response(query, k)` returns
exactly the result of `generate_response_with_chat` on the single-turn
history `[{role: "user", content: query}]` with no catalog. -/
theorem spec_C8 (e : RAGEngine) (query : String) (num_results : Nat) :
    generate_response e query num_results =
      generate_response_with_chat e query
        [{ role := "user", content := query }] num_results none := rfl

/-- Claim C9: when the Gemini client failed to initialize, the call
returns the fixed API-key error with empty sources, and the empty trace
shows that neither retrieval nor the backend was invoked. -/
theorem spec_C9 (e : RAGEngine) (query : String) (hist : List Message)
    (k : Nat) (avail : Option (List String)) (hm : e.modelSome = false) :
    generate_response_with_chat e query hist k avail =
      ({ answer := initErrMsg, sources := some [], document_request := none },
        []) := by
  unfold generate_response_with_chat
  rw [hm]
  simp

theorem spec_C9_witness :
    generate_response_with_chat engNoModel "q" [] 3 none =
      ({ answer := initErrMsg, sources := some [], document_request := none },
        []) :=
  spec_C9 engNoModel "q" [] 3 none rfl

/-- Claim C2: empty retrieval with an empty-or-absent catalog yields the
fixed no-relevant-information answer with empty sources, and the trace
contains no generation event — the backend is never invoked. -/
theorem spec_C2 (e : RAGEngine) (query : String) (hist : List Message)
    (k : Nat) (avail : Option (List String)) (hm : e.modelSome = true)
    (hs : e.similarity_search query k = Except.ok [])
    (ha : pyTruthyL avail = false) :
    generate_response_with_chat e query hist k avail =
      ({ answer := noInfoMsg, sources := some [], document_request := none },
        [Event.search query k]) ∧
    ∀ p, Event.gen p ∉ (generate_response_with_chat e query hist k avail).2 := by
  have hmain : generate_response_with_chat e query hist k avail =
      ({ answer := noInfoMsg, sources := some [], document_request := none },
        [Event.search query k]) := by
    unfold generate_response_with_chat
    rw [hm, hs]
    simp [ha]
  refine ⟨hmain, ?_⟩
  rw [hmain]
  intro p
  simp

theorem spec_C2_witness :
    generate_response_with_chat engEmpty "q" [] 3 none =
      ({ answer := noInfoMsg, sources := some [], document_request := none },
        [Event.search "q" 3]) :=
  (spec_C2 engEmpty "q" [] 3 none rfl rfl rfl).1

/-- Claim C1 as stated is false: with a non-empty retrieval and a failing
backend, `generate_response_with_chat` returns the error text as answer
but attaches the retrieved documents as sources — not the empty
sequence. -/
theorem spec_C1_counterexample :
    (generate_response_with_chat engFail "q" [⟨"user", "q"⟩] 3 none).1 =
      ⟨"Error generating response: boom", some [egDoc], some none⟩ ∧
    (some [egDoc] : Option (List Doc)) ≠ some [] := by
  exact ⟨by decide, by simp [egDoc]⟩

/-- Claim C1, amended: a backend failure still yields a result object
(never an unhandled fault) whose answer is non-empty text describing the
failure; its sources field holds the retrieved documents on the main path
and is absent (no `"sources"` key) on the catalog fallback path. -/
theorem spec_C1_amended (e : RAGEngine) (query : String) (hist : List Message)
    (k : Nat) (avail : Option (List String)) (m : String) (docs : List Doc)
    (hm : e.modelSome = true)
    (hg : ∀ p, e.gemini p = Except.error m)
    (hbr : '[' ∉ m.data)
    (hs : e.similarity_search query k = Except.ok docs) :
    (docs ≠ [] →
      (generate_response_with_chat e query hist k avail).1 =
        ⟨"Error generating response: " ++ m, some docs, some none⟩) ∧
    (docs = [] → pyTruthyL avail = true →
      (generate_response_with_chat e query hist k avail).1 =
        ⟨"Error generating response: " ++ m, none, none⟩) ∧
    ("Error generating response: " ++ m) ≠ "" := by
  have hclean : '[' ∉ ("Error generating response: " ++ m).data := by
    rw [data_append]
    intro hmem
    rcases List.mem_append.mp hmem with h | h
    · exact absurd h (by decide)
    · exact hbr h
  have hproc : process_response ("Error generating response: " ++ m) =
      ⟨"Error generating response: " ++ m, none⟩ :=
    process_response_eq_none _ (findFirstTag_clean _ hclean)
  refine ⟨?_, ?_, ?_⟩
  · intro hd
    have hne : docs.isEmpty = false := by
      cases docs with
      | nil => exact absurd rfl hd
      | cons a l => rfl
    unfold generate_response_with_chat
    rw [hm, hs]
    simp only [hne, if_true, if_false, Bool.false_eq_true]
    simp [generate_with_gemini, hg, hproc]
  · intro hd ha
    subst hd
    unfold generate_response_with_chat
    rw [hm, hs]
    simp only [List.isEmpty_nil, if_true, ha]
    simp [handle_no_relevant_docs, generate_with_gemini, hg, hproc]
  · intro hcz
    have h2 : ("Error generating response: " ++ m).data = [] := by
      rw [hcz]
    rw [data_append] at h2
    exact absurd (List.append_eq_nil.mp h2).1 (by decide)

theorem spec_C1_witness :
    (generate_response_with_chat engFail "qq" [] 3 none).1 =
      ⟨"Error generating response: boom", some [egDoc], some none⟩ :=
  (spec_C1_amended engFail "qq" [] 3 none "boom" [egDoc] rfl (fun _ => rfl)
    (by decide) rfl).1 (by simp)

/-- Claim C3 as stated is false in one detail: the fallback result of
`_handle_no_relevant_docs` carries no `"sources"` key at all rather than
an empty sources sequence. -/
theorem spec_C3_counterexample :
    (generate_response_with_chat engFallback "q" [⟨"user", "q"⟩] 3
        (some ["UU-1.pdf", "UU-2.pdf"])).1.sources = none ∧
    (none : Option (List Doc)) ≠ some [] ∧
    (generate_response_with_chat engFallback "q" [⟨"user", "q"⟩] 3
        (some ["UU-1.pdf", "UU-2.pdf"])).1.document_request =
      some (some "UU-1.pdf") := by
  refine ⟨by decide, by simp, by decide⟩

/-- Claim C3, amended: with empty retrieval and a non-empty catalog, the
engine sends exactly one backend call whose fallback prompt contains every
catalog name, parses the response for a directive, and returns the parsed
result — which carries no `"sources"` key (callers reading sources with an
empty default observe the empty sequence). -/
theorem spec_C3_amended (e : RAGEngine) (query : String) (hist : List Message)
    (k : Nat) (names : List String) (hm : e.modelSome = true)
    (hs : e.similarity_search query k = Except.ok []) (hne : names ≠ []) :
    (generate_response_with_chat e query hist k (some names)).2 =
      [Event.search query k, Event.gen (fallbackPrompt query names)] ∧
    (∀ nm ∈ names, SubstringOf nm (fallbackPrompt query names)) ∧
    (generate_response_with_chat e query hist k (some names)).1.sources =
      none ∧
    (generate_response_with_chat e query hist k (some names)).1 =
      { answer := (process_response
          (generate_with_gemini e (fallbackPrompt query names)).1).answer
        sources := none
        document_request := (process_response
          (generate_with_gemini e
            (fallbackPrompt query names)).1).document_request.map some } := by
  have htruthy : pyTruthyL (some names) = true := by
    cases names with
    | nil => exact absurd rfl hne
    | cons x xs => rfl
  have hmain : generate_response_with_chat e query hist k (some names) =
      (({ answer := (process_response
            (generate_with_gemini e (fallbackPrompt query names)).1).answer
          sources := none
          document_request := (process_response
            (generate_with_gemini e
              (fallbackPrompt query names)).1).document_request.map some }),
        [Event.search query k, Event.gen (fallbackPrompt query names)]) := by
    unfold generate_response_with_chat
    rw [hm, hs]
    simp only [List.isEmpty_nil, if_true, htruthy]
    simp [handle_no_relevant_docs, generate_with_gemini]
    cases hg : e.gemini (fallbackPrompt query names) with
    | ok t => simp
    | error msg => simp
  refine ⟨by rw [hmain], ?_, by rw [hmain], by rw [hmain]⟩
  intro nm hnm
  show SubstringOf nm (fallbackPrompt query names)
  unfold fallbackPrompt
  exact substringOf_append_left _ _ _ (substringOf_append_right _ _ _
    (substringOf_mem_joinWith ", " names nm hnm))

theorem spec_C3_witness :
    SubstringOf "UU-1.pdf" (fallbackPrompt "q" ["UU-1.pdf", "UU-2.pdf"]) ∧
    (generate_response_with_chat engFallback "q" [] 3
        (some ["UU-1.pdf", "UU-2.pdf"])).1.sources = none := by
  have h := spec_C3_amended engFallback "q" [] 3 ["UU-1.pdf", "UU-2.pdf"] rfl
    rfl (by simp)
  exact ⟨h.2.1 "UU-1.pdf" (by simp), h.2.2.1⟩

/-! ### Claim C6: context assembly -/

/-- Concatenation of a list of strings. -/
def concatAll : List String → String
  | [] => ""
  | x :: xs => x ++ concatAll xs

/-- Spec-side: the last `min(5, history length − 1)` turns preceding the
turn currently being answered. -/
def specRecentTurns (h : List Message) : List Message :=
  h.dropLast.drop (h.dropLast.length - min 5 h.dropLast.length)

/-- Spec-side rendering of one conversation turn, labelled with its role. -/
def renderTurn (m : Message) : String :=
  pyCapitalize m.role ++ ": " ++ m.content ++ "\n"

/-- Spec-side concatenation of the ranked, labelled document blocks. -/
def specDocBlocks (docs : List Doc) : String :=
  concatAll (docs.enum.map (fun p => docBlock p.1 p.2))

theorem string_append_empty (s : String) : s ++ "" = s := by
  cases s with
  | mk d =>
    show String.mk (d ++ []) = String.mk d
    rw [List.append_nil]

theorem foldl_append_concatAll {α : Type} (l : List α) (f : α → String) :
    ∀ init : String,
      l.foldl (fun acc x => acc ++ f x) init = init ++ concatAll (l.map f) := by
  induction l with
  | nil => intro init; exact (string_append_empty init).symm
  | cons x xs ih =>
    intro init
    show xs.foldl _ (init ++ f x) = _
    rw [ih (init ++ f x)]
    show init ++ f x ++ concatAll (xs.map f) =
      init ++ (f x ++ concatAll (xs.map f))
    rw [String.append_assoc]

theorem foldl_history (l : List Message) :
    ∀ init : String,
      l.foldl
        (fun acc m =>
          if m.role == "system" then acc
          else acc ++ pyCapitalize m.role ++ ": " ++ m.content ++ "\n") init =
      init ++ concatAll
        ((l.filter (fun m => !(m.role == "system"))).map renderTurn) := by
  induction l with
  | nil => intro init; exact (string_append_empty init).symm
  | cons m rest ih =>
    intro init
    cases hr : (m.role == "system") with
    | true =>
      show rest.foldl _ (if m.role == "system" then init else _) = _
      rw [hr]
      simp only [if_true]
      rw [ih init]
      congr 1
      congr 1
      rw [List.filter_cons, hr]
      simp
    | false =>
      show rest.foldl _ (if m.role == "system" then init else
        init ++ pyCapitalize m.role ++ ": " ++ m.content ++ "\n") = _
      rw [hr]
      simp only [Bool.false_eq_true, if_false]
      rw [ih (init ++ pyCapitalize m.role ++ ": " ++ m.content ++ "\n")]
      rw [List.filter_cons, hr]
      simp only [Bool.not_false, if_true, List.map_cons]
      show _ = init ++ (renderTurn m ++ _)
      rw [renderTurn, ← String.append_assoc, ← String.append_assoc,
        ← String.append_assoc, ← String.append_assoc]

theorem recentSlice_eq_spec (h : List Message) :
    recentSlice h = specRecentTurns h := by
  unfold recentSlice specRecentTurns
  rw [List.dropLast_eq_take, List.drop_take]
  have hlen : (List.take (h.length - 1) h).length = h.length - 1 := by
    simp [List.length_take]
  rw [hlen]
  have key : h.length - min 6 h.length =
      (h.length - 1) - min 5 (h.length - 1) := by omega
  rw [key]

/-- Claim C6: `_create_context` renders each retrieved chunk as a labelled
block in ranked order, followed by the last `min(5, history length − 1)`
turns preceding the turn being answered, each labelled with its role and
with system-role turns excluded from that rendering. -/
theorem spec_C6 (docs : List Doc) (h : List Message) :
    (2 ≤ h.length →
      create_context docs h =
        "Here are some relevant documents to help answer the question:\n\n" ++
          specDocBlocks docs ++ "\nRecent conversation history:\n" ++
          concatAll (((specRecentTurns h).filter
            (fun m => !(m.role == "system"))).map renderTurn) ∧
      (specRecentTurns h).length = min 5 (h.length - 1)) ∧
    (h.length ≤ 1 →
      create_context docs h =
        "Here are some relevant documents to help answer the question:\n\n" ++
          specDocBlocks docs) := by
  constructor
  · intro h2
    constructor
    · unfold create_context
      have hcond : 1 < h.length := by omega
      rw [if_pos hcond, recentSlice_eq_spec, foldl_history,
        foldl_append_concatAll, specDocBlocks]
    · unfold specRecentTurns
      simp only [List.length_drop, List.length_dropLast]
      omega
  · intro h1
    unfold create_context
    have hcond : ¬ (1 < h.length) := by omega
    rw [if_neg hcond, foldl_append_concatAll]
    rw [specDocBlocks]

/-- Example history: four turns, a hidden system turn among them. -/
def histEx : List Message :=
  [⟨"user", "halo"⟩, ⟨"assistant", "hai"⟩,
    ⟨"system", "User menyetujui permintaan dokumen: x"⟩, ⟨"user", "lanjut"⟩]

theorem spec_C6_witness :
    2 ≤ histEx.length ∧
    (create_context [egDoc] histEx =
        "Here are some relevant documents to help answer the question:\n\n" ++
          specDocBlocks [egDoc] ++ "\nRecent conversation history:\n" ++
          concatAll (((specRecentTurns histEx).filter
            (fun m => !(m.role == "system"))).map renderTurn) ∧
      (specRecentTurns histEx).length = min 5 (histEx.length - 1)) :=
  ⟨by decide, (spec_C6 [egDoc] histEx).1 (by decide)⟩

/-! ### Claim C7: the document-request round trip -/

theorem containsSub_iff (n : List Char) :
    ∀ h : List Char, containsSub n h = true ↔ ∃ s t, h = s ++ n ++ t := by
  intro h
  induction h with
  | nil =>
    constructor
    · intro hw
      obtain ⟨t, ht⟩ := (startsWithL_iff n []).1 hw
      obtain ⟨rfl, rfl⟩ := List.append_eq_nil.mp ht.symm
      exact ⟨[], [], rfl⟩
    · rintro ⟨s, t, hst⟩
      obtain ⟨h1, h2⟩ := List.append_eq_nil.mp hst.symm
      obtain ⟨h3, h4⟩ := List.append_eq_nil.mp h1
      subst h4
      show containsSub [] [] = true
      rfl
  | cons c cs ih =>
    simp only [containsSub, Bool.or_eq_true]
    constructor
    · rintro (hw | hrec)
      · obtain ⟨t, ht⟩ := (startsWithL_iff _ _).1 hw
        exact ⟨[], t, by simp [ht]⟩
      · obtain ⟨s, t, hst⟩ := ih.1 hrec
        exact ⟨c :: s, t, by simp [hst]⟩
    · rintro ⟨s, t, hst⟩
      cases s with
      | nil =>
        exact Or.inl ((startsWithL_iff _ _).2 ⟨t, by simpa using hst⟩)
      | cons a s' =>
        simp only [List.cons_append, List.cons.injEq] at hst
        exact Or.inr (ih.2 ⟨s', t, hst.2⟩)

theorem substringOf_iff (n h : String) :
    SubstringOf n h ↔ pyInB n h = true := by
  show (∃ s t, h.data = s ++ n.data ++ t) ↔ _
  exact (containsSub_iff n.data h.data).symm

theorem check_recent_aux_acc (l : List Message) :
    ∀ acc, ∃ t, check_recent_aux l acc = acc ++ t := by
  induction l with
  | nil => intro acc; exact ⟨[], by simp [check_recent_aux]⟩
  | cons m rest ih =>
    intro acc
    unfold check_recent_aux
    by_cases hcond :
        (m.role == "system" && pyInB "permintaan dokumen" m.content) = true
    · rw [if_pos hcond]
      by_cases h3 : 3 ≤ (acc ++ [m.content]).length
      · rw [if_pos h3]
        exact ⟨[m.content], rfl⟩
      · rw [if_neg h3]
        obtain ⟨t, hter⟩ := ih (acc ++ [m.content])
        exact ⟨[m.content] ++ t, by rw [hter, List.append_assoc]⟩
    · rw [if_neg hcond]
      exact ih acc

theorem check_recent_append_sys (hist : List Message) (content : String)
    (hc : pyInB "permintaan dokumen" content = true) :
    ∃ t, check_recent_document_requests
        (hist ++ [⟨"system", content⟩]) = content :: t := by
  unfold check_recent_document_requests
  rw [List.reverse_append]
  have hrev : (([⟨"system", content⟩] : List Message)).reverse ++ hist.reverse =
      (⟨"system", content⟩ : Message) :: hist.reverse := by simp
  rw [hrev]
  have hcond : ((Message.mk "system" content).role == "system" &&
      pyInB "permintaan dokumen" (Message.mk "system" content).content) =
      true := by
    show (("system" == "system") && pyInB "permintaan dokumen" content) = true
    rw [hc]
    rfl
  unfold check_recent_aux
  rw [if_pos hcond]
  have h3 : ¬ (3 ≤ (([] : List String) ++ [content]).length) := by simp
  rw [if_neg h3]
  obtain ⟨t, ht⟩ := check_recent_aux_acc hist.reverse ([] ++ [content])
  exact ⟨t, by rw [ht]; rfl⟩

theorem joinSpace_head (c : String) (t : List String) :
    ∃ u, (joinSpace (c :: t)).data = c.data ++ u := by
  cases t with
  | nil => exact ⟨[], by simp [joinSpace, joinWith]⟩
  | cons y ys =>
    refine ⟨(" " ++ joinWith " " (y :: ys)).data, ?_⟩
    show (c ++ " " ++ joinWith " " (y :: ys)).data = _
    simp [data_append, List.append_assoc]

theorem substringOf_reqSeg (content : String) (t : List String) :
    SubstringOf content (reqSeg (content :: t)) := by
  obtain ⟨u, hu⟩ := joinSpace_head content t
  unfold reqSeg
  exact substringOf_append_left _ _ _ (substringOf_append_right _ _ _
    ⟨[], u, by rw [hu]; simp⟩)

/-- Claim C7, amended: appending a hidden `system` turn whose content
contains the detection phrase `"permintaan dokumen"`, then calling the
engine again, makes that content a substring of the prompt sent to the
backend — provided retrieval returns results, i.e. on the main generation
path (the catalog fallback prompt omits the grounding segment). -/
theorem spec_C7_amended (e : RAGEngine) (query : String) (hist : List Message)
    (k : Nat) (avail : Option (List String)) (content : String)
    (docs : List Doc) (hm : e.modelSome = true)
    (hs : e.similarity_search query k = Except.ok docs) (hd : docs ≠ [])
    (hc : pyInB "permintaan dokumen" content = true) :
    ∃ p, (generate_response_with_chat e query
        (hist ++ [⟨"system", content⟩]) k avail).2 =
      [Event.search query k, Event.gen p] ∧ SubstringOf content p := by
  obtain ⟨t, ht⟩ := check_recent_append_sys hist content hc
  have hne : docs.isEmpty = false := by
    cases docs with
    | nil => exact absurd rfl hd
    | cons a l => rfl
  refine ⟨create_prompt query
      (create_context docs (hist ++ [⟨"system", content⟩]))
      (hist ++ [⟨"system", content⟩]) avail (content :: t), ?_, ?_⟩
  · unfold generate_response_with_chat
    rw [hm, hs, ht]
    simp only [hne, Bool.false_eq_true, if_false, if_true]
    unfold generate_with_gemini
    cases e.gemini (create_prompt query
        (create_context docs (hist ++ [⟨"system", content⟩]))
        (hist ++ [⟨"system", content⟩]) avail (content :: t)) with
    | ok s => rfl
    | error s => rfl
  · unfold create_prompt
    simp only [List.isEmpty_cons, Bool.false_eq_true, if_false]
    exact substringOf_append_left _ _ _ (substringOf_append_right _ _ _
      (substringOf_reqSeg content t))

/-- The approval text appended by the `Setuju` button in `app.py`. -/
def approvalMsg : String := "User menyetujui permintaan dokumen: UU-1.pdf"

/-- History ending in the hidden approval turn, before a re-ask that finds
no relevant chunks. -/
def histC7 : List Message :=
  [⟨"user", "q"⟩, ⟨"assistant", "a"⟩, ⟨"system", approvalMsg⟩]

set_option maxRecDepth 100000 in
/-- Claim C7 as stated is false: if the re-ask after an approval finds no
relevant chunks and a catalog is supplied, the prompt sent to the backend
is the fallback prompt, which does not contain the approval turn's
content. -/
theorem spec_C7_counterexample :
    (generate_response_with_chat engFallback "q2" histC7 3
        (some ["UU-1.pdf"])).2 =
      [Event.search "q2" 3, Event.gen (fallbackPrompt "q2" ["UU-1.pdf"])] ∧
    ¬ SubstringOf approvalMsg (fallbackPrompt "q2" ["UU-1.pdf"]) := by
  constructor
  · rfl
  · rw [substringOf_iff]
    decide

/-- Engine whose store finds `egDoc` and whose backend answers plainly. -/
def engMain : RAGEngine :=
  { similarity_search := fun _ _ => .ok [egDoc]
    gemini := fun _ => .ok "jawaban singkat"
    modelSome := true }

/-- The history of the witness run: a user turn plus the appended hidden
approval turn. -/
def histW : List Message := [⟨"user", "q"⟩] ++ [⟨"system", approvalMsg⟩]

/-- The prompt the witness run sends to the backend. -/
def promptW : String :=
  create_prompt "q2" (create_context [egDoc] histW) histW none [approvalMsg]

set_option maxRecDepth 100000 in
theorem spec_C7_witness :
    (generate_response_with_chat engMain "q2" histW 3 none).2 =
      [Event.search "q2" 3, Event.gen promptW] ∧
    SubstringOf approvalMsg promptW := by
  obtain ⟨p, htr, hsub⟩ := spec_C7_amended engMain "q2" [⟨"user", "q"⟩] 3 none
    approvalMsg [egDoc] rfl rfl (by simp) (by decide)
  have htr2 : (generate_response_with_chat engMain "q2" histW 3 none).2 =
      [Event.search "q2" 3, Event.gen promptW] := by decide
  have hp : p = promptW := by
    have hmid := htr.symm.trans htr2
    simp only [List.cons.injEq, Event.gen.injEq, and_true, true_and] at hmid
    exact hmid
  exact ⟨htr2, hp ▸ hsub⟩
